import Mathlib

/-!
Verification of the Seats frontend client (src/frontend/src) against its
natural-language specification.  The definitions below are a shallow
embedding of the TypeScript source: timestamps (ISO strings and epoch
milliseconds) are modelled as integers, JS objects keyed by floor /
seat id become functions into `Option`, and JSON request bodies become
association lists of key/value pairs (mirroring `JSON.stringify`, which
drops properties whose value is `undefined`).
-/

namespace Seats

/-- Seat status enumeration, from src/frontend/src/types.ts. -/
inductive SeatStatus
  | AVAILABLE
  | HOLD
  | SOLD
  | BLOCKED
deriving DecidableEq, Repr

/-- Hold information attached to a seat (types.ts `SeatHoldInfo`).
The ISO `expires_at` string is modelled as an epoch-millisecond integer. -/
structure SeatHoldInfo where
  client_id : String
  expires_at : Int
deriving DecidableEq, Repr

/-- A seat record (types.ts `Seat`).  `updated_at` (an ISO string in the
source) is modelled as epoch milliseconds; `hold` conflates the source's
`undefined` and `null` into `Option`, exactly as the client code treats
them (it only ever tests truthiness / optional-chains on `hold`). -/
structure Seat where
  seat_id : String
  floor : Int
  excel_row : Int
  excel_col : Int
  layout_row : Option Int
  layout_col : Option Int
  zone : String
  tier : Option String
  price : Int
  status : SeatStatus
  updated_at : Int
  hold : Option SeatHoldInfo
deriving DecidableEq, Repr

/-- The client's seat catalog state: `Record<number, Record<string, Seat>>`
from App.tsx, modelled as a function from floor to an optional seat map. -/
def SeatState : Type := Int → Option (String → Option Seat)

/-- A single entry of a `PATCH_SEATS` action's `updates` array. -/
structure SeatPatch where
  seatId : String
  patch : Option Seat → Option Seat

/-- The reducer actions (App.tsx `SeatAction`). -/
inductive SeatAction
  | SET_SEATS (floor : Int) (seats : List Seat)
  | PATCH_SEATS (floor : Int) (updates : List SeatPatch)

/-- `SET_SEATS` builds a fresh map from the seat list; later entries with
the same `seat_id` overwrite earlier ones, as JS object assignment does. -/
def buildSeatMap (seats : List Seat) : String → Option Seat :=
  seats.foldl (fun m seat => fun k => if k = seat.seat_id then some seat else m k)
    (fun _ => none)

/-- One step of the `PATCH_SEATS` loop in `seatReducer` (App.tsx lines
53–61).  `existing` is always read from the floor map as it was when the
action was processed (`currentFloorMap`), while writes accumulate; the
boolean is the `changed` flag.  The JS skip condition
`!next || (existing && next === existing)` becomes: the patch returned
`none`, or it returned exactly the existing seat. -/
def patchStep (current : String → Option Seat)
    (acc : (String → Option Seat) × Bool) (update : SeatPatch) :
    (String → Option Seat) × Bool :=
  match update.patch (current update.seatId) with
  | none => acc
  | some nextSeat =>
    if current update.seatId = some nextSeat then acc
    else ((fun k => if k = update.seatId then some nextSeat else acc.1 k), true)

/-- The body of the `PATCH_SEATS` branch: fold all updates over a copy of
the current floor map, tracking whether anything changed. -/
def applyPatches (current : String → Option Seat) (updates : List SeatPatch) :
    (String → Option Seat) × Bool :=
  updates.foldl (patchStep current) (current, false)

/-- The seat reducer (App.tsx `seatReducer`, lines 37–70). -/
def seatReducer (state : SeatState) (action : SeatAction) : SeatState :=
  match action with
  | .SET_SEATS floor seats =>
    fun f => if f = floor then some (buildSeatMap seats) else state f
  | .PATCH_SEATS floor updates =>
    match state floor with
    | none => state
    | some currentFloorMap =>
      if (applyPatches currentFloorMap updates).2 then
        fun f => if f = floor then some (applyPatches currentFloorMap updates).1 else state f
      else state

/-- Look a seat up in the client state (reading `state[floor]?.[seatId]`). -/
def lookupSeat (state : SeatState) (floor : Int) (seatId : String) : Option Seat :=
  match state floor with
  | none => none
  | some m => m seatId

/-- The state with no floor loaded (the reducer's initial state `{}`). -/
def emptySeatState : SeatState := fun _ => none

/-- First component of a seat id: the characters before the first `-`,
i.e. `seatId.split('-')[0]` in App.tsx `seatIdToFloor`. -/
def firstComponent (cs : List Char) : List Char :=
  cs.takeWhile (fun c => c ≠ '-')

/-- Decimal value of a digit string. -/
def digitsValue (cs : List Char) : Nat :=
  cs.foldl (fun acc c => acc * 10 + (c.toNat - '0'.toNat)) 0

/-- Model of JS `Number()` restricted to the strings that can appear as
the first `-`-separated component of a seat id: the empty string parses
to `0` (as in JS), a run of decimal digits parses to its value, anything
else is `NaN` (`none`). -/
def jsNumber (cs : List Char) : Option Int :=
  if cs = [] then some 0
  else if cs.all Char.isDigit then some (digitsValue cs) else none

/-- App.tsx `seatIdToFloor`: parse the floor out of a seat id, falling
back to `1` when the first component is not a finite number. -/
def seatIdToFloor (seatId : String) : Int :=
  match jsNumber (firstComponent seatId.data) with
  | some n => n
  | none => 1

/-- App.tsx line 9. -/
def HOLD_TTL_SECONDS : Int := 120

/-- App.tsx `getExpireAtOrDefault` (lines 83–87): return the given expiry
when present, otherwise fall back to `Date.now() + HOLD_TTL_SECONDS * 1000`
computed on the client (`now` is the client clock at the call). -/
def getExpireAtOrDefault (expireAt : Option Int) (now : Int) : Int :=
  match expireAt with
  | some t => t
  | none => now + HOLD_TTL_SECONDS * 1000

/-- The payload of a `seat_update` frame (types.ts `SeatUpdateEvent`).
`from`/`by`/`at` are Lean keywords, hence the trailing underscores;
`at_` (an ISO string in the source) is modelled as epoch milliseconds. -/
structure SeatUpdatePayload where
  seat_id : String
  from_ : SeatStatus
  to_ : SeatStatus
  by_ : Option String
  at_ : Int
deriving DecidableEq, Repr

/-- The patch installed by the `subscribeSeatUpdates` `onUpdate` handler
(App.tsx lines 174–196).  A missing seat is left missing.  Otherwise the
status becomes `to` and `updated_at` the event's `at`.  For `to = HOLD`
the hold is rebuilt: its owner is `by`, falling back to the previous
owner or `"unknown"`; its expiry is kept from the previous hold when the
event is the client's own and a previous expiry exists (the JS condition
`by === clientId && seat.hold?.expires_at`, a present ISO expiry being
truthy), and otherwise is the client-computed default.  For any other
`to` the hold is cleared, and again for `SOLD`. -/
def seatUpdatePatch (clientId : String) (now : Int) (p : SeatUpdatePayload) :
    Option Seat → Option Seat :=
  fun seatOpt =>
    match seatOpt with
    | none => none
    | some seat =>
      let base := { seat with status := p.to_, updated_at := p.at_ }
      let next :=
        if p.to_ = SeatStatus.HOLD then
          { base with hold := some {
              client_id := p.by_.getD ((seat.hold.map SeatHoldInfo.client_id).getD "unknown"),
              expires_at :=
                if p.by_ = some clientId ∧ seat.hold.isSome then
                  ((seat.hold.map SeatHoldInfo.expires_at).getD (getExpireAtOrDefault none now))
                else getExpireAtOrDefault none now } }
        else { base with hold := none }
      some (if p.to_ = SeatStatus.SOLD then { next with hold := none } else next)

/-- The dispatch performed by `onUpdate` for one `seat_update` payload
(App.tsx lines 165–200): a single-entry `PATCH_SEATS` at the floor parsed
out of the seat id. -/
def applySeatUpdateEvent (clientId : String) (now : Int) (state : SeatState)
    (p : SeatUpdatePayload) : SeatState :=
  seatReducer state (.PATCH_SEATS (seatIdToFloor p.seat_id)
    [⟨p.seat_id, seatUpdatePatch clientId now p⟩])

/-- First-occurrence deduplication, the key set of a JS `Map`/`Set`
populated by insertion (iteration follows insertion order). -/
def dedupFirst (l : List Int) : List Int :=
  l.foldl (fun acc x => if x ∈ acc then acc else acc ++ [x]) []

/-- The shared shape of `applyHoldResult` / `applyRelease` / `applyConfirm`
(App.tsx lines 476–565): group the seat ids by `seatIdToFloor` and dispatch
one `PATCH_SEATS` per floor, every update carrying the same patch. -/
def dispatchGrouped (state : SeatState) (seatIds : List String)
    (p : Option Seat → Option Seat) : SeatState :=
  (dedupFirst (seatIds.map seatIdToFloor)).foldl
    (fun st f =>
      seatReducer st (.PATCH_SEATS f
        ((seatIds.filter (fun sid => seatIdToFloor sid = f)).map
          (fun sid => ⟨sid, p⟩))))
    state

/-- The per-seat patch of `applyHoldResult`: mark the seat held by this
client with the (single, precomputed) expiry. -/
def holdPatch (clientId : String) (now expiry : Int) : Option Seat → Option Seat :=
  fun seatOpt =>
    match seatOpt with
    | none => none
    | some seat =>
      some { seat with
        status := SeatStatus.HOLD
        hold := some { client_id := clientId, expires_at := expiry }
        updated_at := now }

/-- App.tsx `applyHoldResult` (lines 476–505): no-op on an empty id list;
otherwise compute one expiry via `getExpireAtOrDefault` and patch every
listed seat with it, grouped per floor. -/
def applyHoldResult (clientId : String) (now : Int) (state : SeatState)
    (seatIds : List String) (expireAt : Option Int) : SeatState :=
  if seatIds.isEmpty then state
  else
    dispatchGrouped state seatIds
      (holdPatch clientId now (getExpireAtOrDefault expireAt now))

/-- The per-seat patch of `applyRelease`: back to AVAILABLE, hold cleared. -/
def releasePatch (now : Int) : Option Seat → Option Seat :=
  fun seatOpt =>
    match seatOpt with
    | none => none
    | some seat =>
      some { seat with
        status := SeatStatus.AVAILABLE
        hold := none
        updated_at := now }

/-- App.tsx `applyRelease` (lines 507–535). -/
def applyRelease (now : Int) (state : SeatState) (seatIds : List String) : SeatState :=
  if seatIds.isEmpty then state
  else dispatchGrouped state seatIds (releasePatch now)

/-- The per-seat patch of `applyConfirm`: SOLD, hold cleared. -/
def confirmPatch (now : Int) : Option Seat → Option Seat :=
  fun seatOpt =>
    match seatOpt with
    | none => none
    | some seat =>
      some { seat with
        status := SeatStatus.SOLD
        hold := none
        updated_at := now }

/-- App.tsx `applyConfirm` (lines 537–565). -/
def applyConfirm (now : Int) (state : SeatState) (seatIds : List String) : SeatState :=
  if seatIds.isEmpty then state
  else dispatchGrouped state seatIds (confirmPatch now)

/-- JSON values, as produced by `JSON.stringify` on the request payloads
of src/frontend/src/lib/api.ts. -/
inductive JsonValue
  | str (s : String)
  | num (n : Int)
  | arr (xs : List JsonValue)
  | null

/-- A JSON object body: ordered key/value pairs.  `JSON.stringify` emits
properties in declaration order and silently drops any property whose
value is `undefined`. -/
abbrev JsonBody : Type := List (String × JsonValue)

/-- An HTTP request as issued by the `request` helper in lib/api.ts:
`Content-Type: application/json` always comes first, then any headers
given by the caller. -/
structure HttpRequest where
  method : String
  path : String
  headers : List (String × String)
  body : JsonBody

/-- Body of `holdSeats` (api.ts lines 36–41):
`JSON.stringify({ seat_ids: seatIds, client_id: clientId })`. -/
def holdRequestBody (seatIds : List String) (clientId : String) : JsonBody :=
  [("seat_ids", JsonValue.arr (seatIds.map JsonValue.str)),
   ("client_id", JsonValue.str clientId)]

/-- The `holdSeats` request (api.ts lines 36–41). -/
def holdRequest (seatIds : List String) (clientId : String) : HttpRequest :=
  { method := "POST"
    path := "/api/hold"
    headers := [("Content-Type", "application/json")]
    body := holdRequestBody seatIds clientId }

/-- Body of `releaseSeats` (api.ts lines 43–51):
`JSON.stringify({ seat_ids: seatIds, client_id: clientId })` where
`seatIds` may be `undefined`, in which case `JSON.stringify` drops the
`seat_ids` property entirely. -/
def releaseRequestBody (seatIds : Option (List String)) (clientId : String) : JsonBody :=
  (match seatIds with
   | none => []
   | some ids => [("seat_ids", JsonValue.arr (ids.map JsonValue.str))]) ++
  [("client_id", JsonValue.str clientId)]

/-- The `releaseSeats` request (api.ts lines 43–51). -/
def releaseRequest (seatIds : Option (List String)) (clientId : String) : HttpRequest :=
  { method := "POST"
    path := "/api/release"
    headers := [("Content-Type", "application/json")]
    body := releaseRequestBody seatIds clientId }

/-- `handleReleaseAll` (App.tsx lines 625–637) always calls
`releaseSeats(undefined, clientId)`; this is the request it issues (it
returns `none` when the client holds nothing, line 626). -/
def handleReleaseAllRequest (heldBySelf : List Seat) (clientId : String) :
    Option HttpRequest :=
  if heldBySelf.isEmpty then none
  else some (releaseRequest none clientId)

/-- Decimal rendering of a natural number as JS template interpolation
`${n}` produces for an integral `Date.now()` value. -/
def jsNatToString (n : Nat) : String :=
  if n = 0 then "0"
  else String.mk (((Nat.digits 10 n).map Nat.digitChar).reverse)

/-- The request id built by `handleConfirm` (App.tsx line 648):
`` `${clientId}-${Date.now()}` ``. -/
def mkConfirmRequestId (clientId : String) (nowMs : Nat) : String :=
  clientId ++ "-" ++ jsNatToString nowMs

/-- Body of `confirmSeats` (api.ts lines 53–62). -/
def confirmRequestBody (seatIds : List String) (clientId requestId : String) : JsonBody :=
  [("seat_ids", JsonValue.arr (seatIds.map JsonValue.str)),
   ("client_id", JsonValue.str clientId),
   ("request_id", JsonValue.str requestId)]

/-- The confirm request issued by `handleConfirm` (App.tsx lines 639–662)
when the local hold set is non-empty: seat ids of the seats held by this
client and a freshly minted request id. -/
def handleConfirmRequest (adminEnabled : Bool) (heldBySelf : List Seat)
    (clientId : String) (nowMs : Nat) : Option HttpRequest :=
  if adminEnabled then none
  else if heldBySelf.isEmpty then none
  else some
    { method := "POST"
      path := "/api/confirm"
      headers := [("Content-Type", "application/json")]
      body := confirmRequestBody (heldBySelf.map Seat.seat_id) clientId
        (mkConfirmRequestId clientId nowMs) }

/-- The admin update payload (types.ts `AdminSeatUpdatePayload`).  The
outer `Option` is property presence (`undefined` is dropped by
`JSON.stringify`), the inner one JSON `null`. -/
structure AdminSeatUpdatePayload where
  status : Option SeatStatus
  tier : Option (Option String)
  price : Option (Option Int)

/-- The JSON string of a status enum value. -/
def statusToString : SeatStatus → String
  | .AVAILABLE => "AVAILABLE"
  | .HOLD => "HOLD"
  | .SOLD => "SOLD"
  | .BLOCKED => "BLOCKED"

/-- The fields `JSON.stringify` keeps from an admin payload, in property
order `status`, `tier`, `price`. -/
def payloadFields (p : AdminSeatUpdatePayload) : JsonBody :=
  (match p.status with
   | none => []
   | some s => [("status", JsonValue.str (statusToString s))]) ++
  (match p.tier with
   | none => []
   | some none => [("tier", JsonValue.null)]
   | some (some t) => [("tier", JsonValue.str t)]) ++
  (match p.price with
   | none => []
   | some none => [("price", JsonValue.null)]
   | some (some n) => [("price", JsonValue.num n)])

/-- The `adminUpdateSeat` request (api.ts lines 64–76): a PATCH with the
admin token in the `X-Admin-Token` header, never in the body. -/
def adminUpdateSeatRequest (seatId : String) (payload : AdminSeatUpdatePayload)
    (adminToken : String) : HttpRequest :=
  { method := "PATCH"
    path := "/api/admin/seats/" ++ seatId
    headers := [("Content-Type", "application/json"), ("X-Admin-Token", adminToken)]
    body := payloadFields payload }

/-- The `adminBulkUpdateSeats` request (api.ts lines 78–95). -/
def adminBulkUpdateRequest (seatIds : List String) (payload : AdminSeatUpdatePayload)
    (adminToken : String) : HttpRequest :=
  { method := "POST"
    path := "/api/admin/seats/bulk"
    headers := [("Content-Type", "application/json"), ("X-Admin-Token", adminToken)]
    body := ("seat_ids", JsonValue.arr (seatIds.map JsonValue.str)) :: payloadFields payload }

/-- Outcome of an admin handler: either it throws the missing-token error
before issuing any request, or it issues one.  The error is an exception,
not a value of the `updated`/`missing` response shape. -/
inductive AdminCall
  | authError (message : String)
  | issued (req : HttpRequest)

/-- `handleAdminUpdate` (App.tsx lines 365–395) up to its network call:
with no admin token it throws `管理员令牌缺失` before any request. -/
def handleAdminUpdateCall (adminToken : String) (seatId : String)
    (payload : AdminSeatUpdatePayload) : AdminCall :=
  if adminToken = "" then .authError "管理员令牌缺失"
  else .issued (adminUpdateSeatRequest seatId payload adminToken)

/-- `handleAdminBulkUpdate` (App.tsx lines 397–474) up to its network
call: same missing-token guard. -/
def handleAdminBulkUpdateCall (adminToken : String) (seatIds : List String)
    (payload : AdminSeatUpdatePayload) : AdminCall :=
  if adminToken = "" then .authError "管理员令牌缺失"
  else .issued (adminBulkUpdateRequest seatIds payload adminToken)

/-- The bulk-update response shape (types.ts `AdminSeatBulkResponse`). -/
structure AdminSeatBulkResponse where
  updated : List Seat
  missing : List String

/-- The patch used by `handleAdminBulkUpdate` and `handleAdminUpdate` for
a returned seat: `patch: () => seat`, ignoring whatever is there. -/
def constPatch (seat : Seat) : Option Seat → Option Seat :=
  fun _ => some seat

/-- The state change `handleAdminBulkUpdate` performs for a response
(App.tsx lines 411–451), before any refetch: group `updated` by the
response seats' `floor` field (a JS `Map`, iterated in first-occurrence
order); for each floor whose map is loaded in the `seatState` snapshot
captured by the handler, dispatch one `PATCH_SEATS` installing each
returned seat verbatim; unloaded floors are skipped here (they are
refetched wholesale instead).  `missing` is never consulted. -/
def bulkApplyUpdated (state : SeatState) (response : AdminSeatBulkResponse) : SeatState :=
  if response.updated.isEmpty then state
  else
    ((dedupFirst (response.updated.map Seat.floor)).filter
        (fun f => (state f).isSome)).foldl
      (fun st f =>
        seatReducer st (.PATCH_SEATS f
          ((response.updated.filter (fun s => s.floor = f)).map
            (fun s => ⟨s.seat_id, constPatch s⟩))))
      state

/-- The floors `handleAdminBulkUpdate` schedules for a wholesale refetch
(App.tsx lines 413–422, 438–450): floors of returned seats that have no
loaded map in the captured `seatState` snapshot, collected into a JS
`Set` in first-occurrence order. -/
def bulkFloorsToRefresh (state : SeatState) (response : AdminSeatBulkResponse) : List Int :=
  if response.updated.isEmpty then []
  else dedupFirst ((response.updated.map Seat.floor).filter (fun f => (state f).isNone))

/-- What a seat click triggers (App.tsx `handleSeatClick`, lines 567–604):
an admin selection toggle, nothing, a release request for the clicked
seat, or a hold request for the clicked seat. -/
inductive SeatClickEffect
  | adminToggle (seatId : String)
  | nothing
  | releaseReq (seatIds : List String) (clientId : String)
  | holdReq (seatIds : List String) (clientId : String)
deriving DecidableEq, Repr

/-- App.tsx `handleSeatClick` (lines 567–604), decision structure only:
admin mode toggles the admin selection; a hold already in flight does
nothing; BLOCKED/SOLD do nothing; a seat held by this client is released;
an AVAILABLE seat is held; anything else (a seat held by someone else)
does nothing. -/
def handleSeatClick (adminEnabled holding : Bool) (clientId : String) (seat : Seat) :
    SeatClickEffect :=
  if adminEnabled then .adminToggle seat.seat_id
  else if holding then .nothing
  else if seat.status = SeatStatus.BLOCKED ∨ seat.status = SeatStatus.SOLD then .nothing
  else if seat.status = SeatStatus.HOLD ∧
      (seat.hold.map SeatHoldInfo.client_id) = some clientId then
    .releaseReq [seat.seat_id] clientId
  else if seat.status = SeatStatus.AVAILABLE then .holdReq [seat.seat_id] clientId
  else .nothing

/-- SeatMap.tsx constants (lines 4–5). -/
def SEAT_SIZE : Int := 20

/-- SeatMap.tsx constants (lines 4–5). -/
def GAP : Int := 6

/-- The tier/status filters passed to the seat map. -/
structure Filters where
  tiers : List String
  statuses : List SeatStatus

/-- A seat with its computed pixel position and visibility
(SeatMap.tsx `PositionedSeat`). -/
structure PositionedSeat where
  seat : Seat
  x : Int
  y : Int
  isVisible : Bool

/-- `Math.min` over a non-empty list (empty list never occurs: the code
guards on `seats.length`). -/
def listMinInt : List Int → Int
  | [] => 0
  | x :: xs => xs.foldl min x

/-- SeatMap.tsx `positioned` (lines 60–75): place each seat relative to
the minimal Excel row/column and mark visibility by the tier and status
filters.  Pointer coordinates are modelled as integers. -/
def positionSeats (seats : List Seat) (filters : Filters) : List PositionedSeat :=
  if seats.isEmpty then []
  else
    let minRow := listMinInt (seats.map Seat.excel_row)
    let minCol := listMinInt (seats.map Seat.excel_col)
    seats.map fun seat =>
      { seat := seat
        x := (seat.excel_col - minCol) * (SEAT_SIZE + GAP)
        y := (seat.excel_row - minRow) * (SEAT_SIZE + GAP)
        isVisible := decide (seat.tier.getD "UNKNOWN" ∈ filters.tiers) &&
          decide (seat.status ∈ filters.statuses) }

/-- The selection rectangle of the box-select gesture. -/
structure Rect where
  x : Int
  y : Int
  width : Int
  height : Int

/-- SeatMap.tsx `handleUp` (lines 104–133): the seat ids handed to
`onBoxSelect` — visible seats, with status AVAILABLE, whose centre lies
inside the selection rectangle. -/
def boxSelectedSeatIds (positioned : List PositionedSeat) (rect : Rect) : List String :=
  (((positioned.filter (fun item => item.isVisible)).filter
    (fun item =>
      decide (item.seat.status = SeatStatus.AVAILABLE) &&
      (decide (rect.x ≤ item.x + SEAT_SIZE / 2) &&
       decide (item.x + SEAT_SIZE / 2 ≤ rect.x + rect.width) &&
       decide (rect.y ≤ item.y + SEAT_SIZE / 2) &&
       decide (item.y + SEAT_SIZE / 2 ≤ rect.y + rect.height)))).map
    (fun item => item.seat.seat_id))

/-- App.tsx `handleBoxSelect` (lines 606–623): in admin mode or with an
empty selection no request is made, otherwise the selected ids are held. -/
def handleBoxSelectRequest (adminEnabled : Bool) (clientId : String)
    (seatIds : List String) : Option HttpRequest :=
  if adminEnabled then none
  else if seatIds.isEmpty then none
  else some (holdRequest seatIds clientId)

/-- One grouped dispatch round: `PATCH_SEATS` per floor, the updates of
floor `f` given by `uf f`. -/
def foldDispatch (uf : Int → List SeatPatch) (floors : List Int) (st : SeatState) :
    SeatState :=
  floors.foldl (fun s f => seatReducer s (.PATCH_SEATS f (uf f))) st

/-! ### Concrete fixtures for counterexamples and witnesses -/

/-- A concrete AVAILABLE seat on floor 1. -/
def seatA : Seat :=
  { seat_id := "1-1-A"
    floor := 1
    excel_row := 2
    excel_col := 3
    layout_row := some 1
    layout_col := some 1
    zone := "A"
    tier := some "A"
    price := 100
    status := SeatStatus.AVAILABLE
    updated_at := 0
    hold := none }

/-- A concrete AVAILABLE seat on floor 2. -/
def seatB : Seat :=
  { seat_id := "2-1-B"
    floor := 2
    excel_row := 4
    excel_col := 5
    layout_row := none
    layout_col := none
    zone := "B"
    tier := none
    price := 50
    status := SeatStatus.AVAILABLE
    updated_at := 0
    hold := none }

/-- A floor map holding exactly `seatA`. -/
def floorMapA : String → Option Seat :=
  fun sid => if sid = "1-1-A" then some seatA else none

/-- A state with only floor 1 loaded, holding exactly `seatA`. -/
def stateA : SeatState :=
  fun f => if f = 1 then some floorMapA else none

/-- The invariant claimed by the spec (§3, §8): a seat is in HOLD status
exactly when it carries a hold whose expiry lies in the future of `now`. -/
def holdFutureInvariant (now : Int) (seat : Seat) : Prop :=
  seat.status = SeatStatus.HOLD ↔ ∃ h, seat.hold = some h ∧ now < h.expires_at

/-- The invariant the client code actually maintains: HOLD status exactly
when the hold field is present and non-null — with no constraint on the
recorded expiry. -/
def holdFlagInvariant (seat : Seat) : Prop :=
  seat.status = SeatStatus.HOLD ↔ seat.hold.isSome = true

/-- `holdFlagInvariant` for every seat of the client state. -/
def stateHoldFlagInvariant (state : SeatState) : Prop :=
  ∀ f sid seat, lookupSeat state f sid = some seat → holdFlagInvariant seat

/-- The seat produced from `seatA` by applying a hold response whose
`expire_at` is the past instant `0` at client time `1000`. -/
def c1HeldSeat : Seat :=
  { seatA with
    status := SeatStatus.HOLD
    hold := some { client_id := "c1", expires_at := 0 }
    updated_at := 1000 }

/-- A live `seat_update` payload: seat `1-1-A` transitions from AVAILABLE
to HOLD, taken by client `c2` at instant 500. -/
def evPayloadHold : SeatUpdatePayload :=
  { seat_id := "1-1-A"
    from_ := SeatStatus.AVAILABLE
    to_ := SeatStatus.HOLD
    by_ := some "c2"
    at_ := 500 }

/-- A concrete admin payload: set status SOLD, clear the tier, leave the
price property absent. -/
def payloadX : AdminSeatUpdatePayload :=
  { status := some SeatStatus.SOLD
    tier := some none
    price := none }

/-- The seat returned by a bulk update that marked `seatA` SOLD at a new
price. -/
def seatASold : Seat :=
  { seatA with status := SeatStatus.SOLD, price := 300 }

/-- A floor map holding exactly `seatB`. -/
def floorMapB : String → Option Seat :=
  fun sid => if sid = "2-1-B" then some seatB else none

/-- A state with floors 1 and 2 loaded, holding `seatA` and `seatB`. -/
def stateAB : SeatState :=
  fun f => if f = 1 then some floorMapA else if f = 2 then some floorMapB else none

/-! ### Basic lemmas about the reducer -/

theorem patchStep_flag (current : String → Option Seat)
    (acc : (String → Option Seat) × Bool) (u : SeatPatch) (h : acc.2 = true) :
    (patchStep current acc u).2 = true := by
  unfold patchStep
  split
  · exact h
  · split
    · exact h
    · rfl

theorem patchStep_cases (current : String → Option Seat)
    (acc : (String → Option Seat) × Bool) (u : SeatPatch) :
    patchStep current acc u = acc ∨ (patchStep current acc u).2 = true := by
  unfold patchStep
  split
  · exact Or.inl rfl
  · split
    · exact Or.inl rfl
    · exact Or.inr rfl

theorem patchStep_fst_ne (current : String → Option Seat)
    (acc : (String → Option Seat) × Bool) (u : SeatPatch) (sid : String)
    (h : u.seatId ≠ sid) : (patchStep current acc u).1 sid = acc.1 sid := by
  unfold patchStep
  split
  · rfl
  · split
    · rfl
    · simp only
      rw [if_neg (fun he => h he.symm)]

theorem patchStep_fst_hit (current : String → Option Seat)
    (acc : (String → Option Seat) × Bool) (u : SeatPatch) (sid : String)
    (nxt : Seat) (hid : u.seatId = sid) (hp : u.patch (current sid) = some nxt)
    (hacc : acc.1 sid = current sid ∨ acc.1 sid = some nxt) :
    (patchStep current acc u).1 sid = some nxt := by
  unfold patchStep
  rw [hid]
  split
  · rename_i hnone
    rw [hp] at hnone
    exact Option.noConfusion hnone
  · rename_i nextSeat hsome
    rw [hp] at hsome
    injection hsome with hnn
    subst hnn
    split
    · rename_i heq
      rcases hacc with h | h
      · rw [h, heq]
      · exact h
    · simp

theorem foldl_patchStep_flag_mono (current : String → Option Seat) :
    ∀ (updates : List SeatPatch) (acc : (String → Option Seat) × Bool),
      acc.2 = true → (updates.foldl (patchStep current) acc).2 = true := by
  intro updates
  induction updates with
  | nil => intro acc h; exact h
  | cons u us ih =>
    intro acc h
    simp only [List.foldl_cons]
    exact ih _ (patchStep_flag current acc u h)

theorem foldl_patchStep_of_flag_false (current : String → Option Seat) :
    ∀ (updates : List SeatPatch) (acc : (String → Option Seat) × Bool),
      (updates.foldl (patchStep current) acc).2 = false →
      updates.foldl (patchStep current) acc = acc := by
  intro updates
  induction updates with
  | nil => intro acc _; rfl
  | cons u us ih =>
    intro acc h
    simp only [List.foldl_cons] at h ⊢
    rcases patchStep_cases current acc u with hc | hc
    · rw [hc] at h ⊢
      exact ih acc h
    · exact absurd (foldl_patchStep_flag_mono current us _ hc) (by simp [h])

theorem foldl_patchStep_keep (current : String → Option Seat) (sid : String) (nxt : Seat) :
    ∀ (updates : List SeatPatch),
      (∀ u ∈ updates, u.seatId = sid → u.patch (current sid) = some nxt) →
      ∀ (acc : (String → Option Seat) × Bool), acc.1 sid = some nxt →
      (updates.foldl (patchStep current) acc).1 sid = some nxt := by
  intro updates
  induction updates with
  | nil => intro _ acc h; exact h
  | cons u us ih =>
    intro hagree acc h
    simp only [List.foldl_cons]
    refine ih (fun v hv => hagree v (List.mem_cons_of_mem u hv)) _ ?_
    by_cases hid : u.seatId = sid
    · exact patchStep_fst_hit current acc u sid nxt hid
        (hagree u (List.mem_cons_self u us) hid) (Or.inr h)
    · rw [patchStep_fst_ne current acc u sid hid]
      exact h

theorem foldl_patchStep_lookup (current : String → Option Seat) (sid : String) (nxt : Seat) :
    ∀ (updates : List SeatPatch),
      (∀ u ∈ updates, u.seatId = sid → u.patch (current sid) = some nxt) →
      (∃ u ∈ updates, u.seatId = sid) →
      ∀ (acc : (String → Option Seat) × Bool),
        (acc.1 sid = current sid ∨ acc.1 sid = some nxt) →
        (updates.foldl (patchStep current) acc).1 sid = some nxt := by
  intro updates
  induction updates with
  | nil =>
    intro _ hex acc _
    obtain ⟨u, hu, _⟩ := hex
    exact absurd hu (List.not_mem_nil u)
  | cons u us ih =>
    intro hagree hex acc hacc
    simp only [List.foldl_cons]
    by_cases hid : u.seatId = sid
    · exact foldl_patchStep_keep current sid nxt us
        (fun v hv => hagree v (List.mem_cons_of_mem u hv)) _
        (patchStep_fst_hit current acc u sid nxt hid
          (hagree u (List.mem_cons_self u us) hid) hacc)
    · obtain ⟨v, hv, hvid⟩ := hex
      rcases List.mem_cons.mp hv with rfl | hv'
      · exact absurd hvid hid
      · refine ih (fun w hw => hagree w (List.mem_cons_of_mem u hw)) ⟨v, hv', hvid⟩ _ ?_
        rw [patchStep_fst_ne current acc u sid hid]
        exact hacc

theorem applyPatches_fst_lookup (current : String → Option Seat)
    (updates : List SeatPatch) (sid : String) (nxt : Seat)
    (hagree : ∀ u ∈ updates, u.seatId = sid → u.patch (current sid) = some nxt)
    (hex : ∃ u ∈ updates, u.seatId = sid) :
    (applyPatches current updates).1 sid = some nxt :=
  foldl_patchStep_lookup current sid nxt updates hagree hex (current, false) (Or.inl rfl)

theorem applyPatches_fst_frame (current : String → Option Seat)
    (updates : List SeatPatch) (sid : String)
    (h : ∀ u ∈ updates, u.seatId ≠ sid) :
    (applyPatches current updates).1 sid = current sid := by
  unfold applyPatches
  suffices hgen : ∀ (l : List SeatPatch), (∀ u ∈ l, u.seatId ≠ sid) →
      ∀ acc : (String → Option Seat) × Bool,
      (l.foldl (patchStep current) acc).1 sid = acc.1 sid by
    exact hgen updates h (current, false)
  intro l
  induction l with
  | nil => intro _ acc; rfl
  | cons u us ih =>
    intro hl acc
    simp only [List.foldl_cons]
    rw [ih (fun v hv => hl v (List.mem_cons_of_mem u hv)) _]
    exact patchStep_fst_ne current acc u sid (hl u (List.mem_cons_self u us))

theorem applyPatches_of_flag_false (current : String → Option Seat)
    (updates : List SeatPatch) (h : (applyPatches current updates).2 = false) :
    (applyPatches current updates).1 = current := by
  unfold applyPatches at h ⊢
  rw [foldl_patchStep_of_flag_false current updates _ h]

theorem seatReducer_patch_none (state : SeatState) (floor : Int)
    (updates : List SeatPatch) (h : state floor = none) :
    seatReducer state (.PATCH_SEATS floor updates) = state := by
  simp only [seatReducer, h]

theorem seatReducer_patch_floor_frame (state : SeatState) (floor : Int)
    (updates : List SeatPatch) (f' : Int) (hne : f' ≠ floor) :
    (seatReducer state (.PATCH_SEATS floor updates)) f' = state f' := by
  cases hm : state floor with
  | none => simp only [seatReducer, hm]
  | some current =>
    simp only [seatReducer, hm]
    split
    · simp [hne]
    · rfl

theorem seatReducer_set_floor_frame (state : SeatState) (floor : Int)
    (seats : List Seat) (f' : Int) (hne : f' ≠ floor) :
    (seatReducer state (.SET_SEATS floor seats)) f' = state f' := by
  simp only [seatReducer]
  simp [hne]

theorem seatReducer_set_self (state : SeatState) (floor : Int) (seats : List Seat) :
    (seatReducer state (.SET_SEATS floor seats)) floor = some (buildSeatMap seats) := by
  simp [seatReducer]

theorem seatReducer_patch_lookup (state : SeatState) (floor : Int)
    (current : String → Option Seat) (h : state floor = some current)
    (updates : List SeatPatch) (sid : String) (nxt : Seat)
    (hagree : ∀ u ∈ updates, u.seatId = sid → u.patch (current sid) = some nxt)
    (hex : ∃ u ∈ updates, u.seatId = sid) :
    lookupSeat (seatReducer state (.PATCH_SEATS floor updates)) floor sid = some nxt := by
  have hfst := applyPatches_fst_lookup current updates sid nxt hagree hex
  cases hflag : (applyPatches current updates).2 with
  | true =>
    simp only [seatReducer, h, hflag, if_true, lookupSeat]
    exact hfst
  | false =>
    rw [applyPatches_of_flag_false current updates hflag] at hfst
    simp only [seatReducer, h, hflag, Bool.false_eq_true, if_false, lookupSeat]
    exact hfst

theorem seatReducer_patch_key_frame (state : SeatState) (floor : Int)
    (updates : List SeatPatch) (sid : String)
    (h : ∀ u ∈ updates, u.seatId ≠ sid) (f' : Int) :
    lookupSeat (seatReducer state (.PATCH_SEATS floor updates)) f' sid =
      lookupSeat state f' sid := by
  by_cases hf : f' = floor
  · subst hf
    cases hm : state f' with
    | none => simp only [seatReducer, hm]
    | some current =>
      cases hflag : (applyPatches current updates).2 with
      | true =>
        simp only [seatReducer, hm, hflag, if_true, lookupSeat]
        exact applyPatches_fst_frame current updates sid h
      | false =>
        simp only [seatReducer, hm, hflag, Bool.false_eq_true, if_false]
  · unfold lookupSeat
    rw [seatReducer_patch_floor_frame state floor updates f' hf]

theorem seatReducer_patch_local (state1 state2 : SeatState) (floor : Int)
    (updates : List SeatPatch) (h : state1 floor = state2 floor) :
    (seatReducer state1 (.PATCH_SEATS floor updates)) floor =
      (seatReducer state2 (.PATCH_SEATS floor updates)) floor := by
  cases hm : state2 floor with
  | none =>
    simp only [seatReducer, hm, h.trans hm]
  | some current =>
    simp only [seatReducer, hm, h.trans hm]
    split
    · simp
    · exact h

theorem foldl_patchStep_P (P : Seat → Prop) (current : String → Option Seat) :
    ∀ (updates : List SeatPatch),
      (∀ u ∈ updates, ∀ s seat', u.patch s = some seat' → P seat') →
      ∀ (acc : (String → Option Seat) × Bool),
        (∀ sid seat, acc.1 sid = some seat → P seat) →
        ∀ sid seat, (updates.foldl (patchStep current) acc).1 sid = some seat → P seat := by
  intro updates
  induction updates with
  | nil => intro _ acc hacc; exact hacc
  | cons u us ih =>
    intro hpat acc hacc
    simp only [List.foldl_cons]
    refine ih (fun v hv => hpat v (List.mem_cons_of_mem u hv)) _ ?_
    intro sid seat hlook
    unfold patchStep at hlook
    split at hlook
    · exact hacc sid seat hlook
    · rename_i nxt hps
      split at hlook
      · exact hacc sid seat hlook
      · have hlook' : (if sid = u.seatId then some nxt else acc.1 sid) = some seat := hlook
        by_cases hsid : sid = u.seatId
        · rw [if_pos hsid] at hlook'
          injection hlook' with hl
          exact hl ▸ hpat u (List.mem_cons_self u us) (current u.seatId) nxt hps
        · rw [if_neg hsid] at hlook'
          exact hacc sid seat hlook'

theorem seatReducer_patch_P (P : Seat → Prop) (state : SeatState) (floor : Int)
    (updates : List SeatPatch)
    (hstate : ∀ f sid seat, lookupSeat state f sid = some seat → P seat)
    (hpat : ∀ u ∈ updates, ∀ s seat', u.patch s = some seat' → P seat') :
    ∀ f sid seat,
      lookupSeat (seatReducer state (.PATCH_SEATS floor updates)) f sid = some seat →
      P seat := by
  intro f sid seat hlook
  by_cases hf : f = floor
  · subst hf
    cases hm : state f with
    | none =>
      rw [seatReducer_patch_none state f updates hm] at hlook
      exact hstate f sid seat hlook
    | some current =>
      cases hflag : (applyPatches current updates).2 with
      | true =>
        simp only [seatReducer, hm, hflag, if_true, lookupSeat] at hlook
        refine foldl_patchStep_P P current updates hpat (current, false) ?_ sid seat hlook
        intro sid' seat' hcur
        refine hstate f sid' seat' ?_
        unfold lookupSeat
        rw [hm]
        exact hcur
      | false =>
        simp only [seatReducer, hm, hflag, Bool.false_eq_true, if_false] at hlook
        exact hstate f sid seat hlook
  · unfold lookupSeat at hlook
    rw [seatReducer_patch_floor_frame state floor updates f hf] at hlook
    exact hstate f sid seat hlook

/-! ### Folding per-floor dispatches -/

theorem foldDispatch_nil (uf : Int → List SeatPatch) (st : SeatState) :
    foldDispatch uf [] st = st := rfl

theorem foldDispatch_cons (uf : Int → List SeatPatch) (f : Int) (fs : List Int)
    (st : SeatState) :
    foldDispatch uf (f :: fs) st =
      foldDispatch uf fs (seatReducer st (.PATCH_SEATS f (uf f))) := rfl

theorem foldDispatch_frame (uf : Int → List SeatPatch) :
    ∀ (floors : List Int) (st : SeatState) (f0 : Int), f0 ∉ floors →
      (foldDispatch uf floors st) f0 = st f0 := by
  intro floors
  induction floors with
  | nil => intro st f0 _; rfl
  | cons f fs ih =>
    intro st f0 hnot
    have hne : f0 ≠ f := fun he => hnot (he ▸ List.mem_cons_self f fs)
    have hnot' : f0 ∉ fs := fun hm => hnot (List.mem_cons_of_mem f hm)
    rw [foldDispatch_cons, ih _ f0 hnot']
    exact seatReducer_patch_floor_frame st f (uf f) f0 hne

theorem foldDispatch_mem (uf : Int → List SeatPatch) :
    ∀ (floors : List Int) (st : SeatState) (f0 : Int), floors.Nodup → f0 ∈ floors →
      (foldDispatch uf floors st) f0 =
        (seatReducer st (.PATCH_SEATS f0 (uf f0))) f0 := by
  intro floors
  induction floors with
  | nil => intro st f0 _ hm; exact absurd hm (List.not_mem_nil f0)
  | cons f fs ih =>
    intro st f0 hnd hm
    have hfs : f ∉ fs := (List.nodup_cons.mp hnd).1
    have hnd' : fs.Nodup := (List.nodup_cons.mp hnd).2
    rw [foldDispatch_cons]
    rcases List.mem_cons.mp hm with rfl | hm'
    · exact foldDispatch_frame uf fs _ f0 hfs
    · have hne : f0 ≠ f := fun he => hfs (he ▸ hm')
      rw [ih _ f0 hnd' hm']
      exact seatReducer_patch_local _ st f0 (uf f0)
        (seatReducer_patch_floor_frame st f (uf f) f0 hne)

theorem foldDispatch_key_frame (uf : Int → List SeatPatch) (sid : String)
    (h : ∀ f, ∀ u ∈ uf f, u.seatId ≠ sid) :
    ∀ (floors : List Int) (st : SeatState) (f' : Int),
      lookupSeat (foldDispatch uf floors st) f' sid = lookupSeat st f' sid := by
  intro floors
  induction floors with
  | nil => intro st f'; rfl
  | cons f fs ih =>
    intro st f'
    rw [foldDispatch_cons, ih _ f']
    exact seatReducer_patch_key_frame st f (uf f) sid (h f) f'

theorem foldDispatch_P (P : Seat → Prop) (uf : Int → List SeatPatch)
    (hpat : ∀ f, ∀ u ∈ uf f, ∀ s seat', u.patch s = some seat' → P seat') :
    ∀ (floors : List Int) (st : SeatState),
      (∀ f sid seat, lookupSeat st f sid = some seat → P seat) →
      ∀ f sid seat, lookupSeat (foldDispatch uf floors st) f sid = some seat → P seat := by
  intro floors
  induction floors with
  | nil => intro st hst; exact hst
  | cons f fs ih =>
    intro st hst
    rw [foldDispatch_cons]
    exact ih _ (seatReducer_patch_P P st f (uf f) hst (hpat f))

theorem dedupFirst_fold_mem :
    ∀ (l : List Int) (acc : List Int) (x : Int),
      x ∈ l.foldl (fun acc y => if y ∈ acc then acc else acc ++ [y]) acc ↔
        x ∈ acc ∨ x ∈ l := by
  intro l
  induction l with
  | nil => intro acc x; simp
  | cons y ys ih =>
    intro acc x
    simp only [List.foldl_cons]
    rw [ih]
    by_cases hy : y ∈ acc
    · rw [if_pos hy]
      constructor
      · rintro (h | h)
        · exact Or.inl h
        · exact Or.inr (List.mem_cons_of_mem y h)
      · rintro (h | h)
        · exact Or.inl h
        · rcases List.mem_cons.mp h with rfl | h'
          · exact Or.inl hy
          · exact Or.inr h'
    · rw [if_neg hy]
      simp only [List.mem_append, List.mem_singleton, List.mem_cons]
      tauto

theorem dedupFirst_mem (l : List Int) (x : Int) : x ∈ dedupFirst l ↔ x ∈ l := by
  unfold dedupFirst
  rw [dedupFirst_fold_mem]
  simp

theorem dedupFirst_fold_nodup :
    ∀ (l : List Int) (acc : List Int), acc.Nodup →
      (l.foldl (fun acc y => if y ∈ acc then acc else acc ++ [y]) acc).Nodup := by
  intro l
  induction l with
  | nil => intro acc h; exact h
  | cons y ys ih =>
    intro acc h
    simp only [List.foldl_cons]
    by_cases hy : y ∈ acc
    · rw [if_pos hy]
      exact ih acc h
    · rw [if_neg hy]
      refine ih _ ?_
      rw [List.nodup_append]
      exact ⟨h, List.nodup_singleton y,
        fun a ha hb => hy ((List.mem_singleton.mp hb) ▸ ha)⟩

theorem dedupFirst_nodup (l : List Int) : (dedupFirst l).Nodup :=
  dedupFirst_fold_nodup l [] List.nodup_nil

/-! ### Lemmas about the grouped dispatches -/

theorem dispatchGrouped_eq_foldDispatch (state : SeatState) (seatIds : List String)
    (p : Option Seat → Option Seat) :
    dispatchGrouped state seatIds p =
      foldDispatch
        (fun f => (seatIds.filter (fun sid => seatIdToFloor sid = f)).map
          (fun sid => ⟨sid, p⟩))
        (dedupFirst (seatIds.map seatIdToFloor)) state := rfl

/-- A seat id listed in a grouped dispatch, whose floor map is loaded,
ends up mapped to the patch's output on its previous value. -/
theorem dispatchGrouped_lookup (state : SeatState) (seatIds : List String)
    (p : Option Seat → Option Seat) (sid : String) (nxt : Seat)
    (hmem : sid ∈ seatIds)
    (current : String → Option Seat)
    (hload : state (seatIdToFloor sid) = some current)
    (hp : p (current sid) = some nxt) :
    lookupSeat (dispatchGrouped state seatIds p) (seatIdToFloor sid) sid = some nxt := by
  rw [dispatchGrouped_eq_foldDispatch]
  have hfmem : seatIdToFloor sid ∈ dedupFirst (seatIds.map seatIdToFloor) := by
    rw [dedupFirst_mem]
    exact List.mem_map_of_mem seatIdToFloor hmem
  have hfold := foldDispatch_mem
    (fun f => (seatIds.filter (fun s => seatIdToFloor s = f)).map
      (fun s => ⟨s, p⟩))
    (dedupFirst (seatIds.map seatIdToFloor)) state (seatIdToFloor sid)
    (dedupFirst_nodup _) hfmem
  unfold lookupSeat
  rw [hfold]
  have := seatReducer_patch_lookup state (seatIdToFloor sid) current hload
    ((seatIds.filter (fun s => seatIdToFloor s = seatIdToFloor sid)).map
      (fun s => ⟨s, p⟩)) sid nxt
    (fun u hu _ => by
      rcases List.mem_map.mp hu with ⟨s, _, rfl⟩
      exact hp)
    ⟨⟨sid, p⟩, List.mem_map_of_mem _ (List.mem_filter.mpr ⟨hmem, by simp⟩), rfl⟩
  unfold lookupSeat at this
  exact this

/-- A seat id not listed in a grouped dispatch is untouched, on every
floor. -/
theorem dispatchGrouped_key_frame (state : SeatState) (seatIds : List String)
    (p : Option Seat → Option Seat) (sid : String) (hn : sid ∉ seatIds) (f' : Int) :
    lookupSeat (dispatchGrouped state seatIds p) f' sid = lookupSeat state f' sid := by
  rw [dispatchGrouped_eq_foldDispatch]
  refine foldDispatch_key_frame _ sid ?_ _ state f'
  intro f u hu
  rcases List.mem_map.mp hu with ⟨s, hs, rfl⟩
  intro he
  exact hn (he ▸ (List.mem_filter.mp hs).1)

/-- A floor that no listed seat id parses to is untouched by a grouped
dispatch. -/
theorem dispatchGrouped_floor_frame (state : SeatState) (seatIds : List String)
    (p : Option Seat → Option Seat) (f0 : Int)
    (hf : f0 ∉ seatIds.map seatIdToFloor) :
    (dispatchGrouped state seatIds p) f0 = state f0 := by
  rw [dispatchGrouped_eq_foldDispatch]
  refine foldDispatch_frame _ _ state f0 ?_
  rw [dedupFirst_mem]
  exact hf

/-! ### Patch output properties -/

theorem seatUpdatePatch_holdFlag (clientId : String) (now : Int) (p : SeatUpdatePayload)
    (s : Option Seat) (seat' : Seat)
    (h : seatUpdatePatch clientId now p s = some seat') :
    holdFlagInvariant seat' := by
  obtain ⟨psid, pfrom, pto, pby, pat⟩ := p
  cases s with
  | none => exact Option.noConfusion h
  | some seat =>
    cases pto <;>
      (simp only [seatUpdatePatch] at h
       simp only [Option.some.injEq] at h
       subst h
       simp [holdFlagInvariant])

theorem holdPatch_holdFlag (clientId : String) (now expiry : Int)
    (s : Option Seat) (seat' : Seat) (h : holdPatch clientId now expiry s = some seat') :
    holdFlagInvariant seat' := by
  cases s with
  | none => exact Option.noConfusion h
  | some seat =>
    simp only [holdPatch, Option.some.injEq] at h
    subst h
    simp [holdFlagInvariant]

theorem releasePatch_holdFlag (now : Int) (s : Option Seat) (seat' : Seat)
    (h : releasePatch now s = some seat') : holdFlagInvariant seat' := by
  cases s with
  | none => exact Option.noConfusion h
  | some seat =>
    simp only [releasePatch, Option.some.injEq] at h
    subst h
    simp [holdFlagInvariant]

theorem dispatchGrouped_P (P : Seat → Prop) (state : SeatState)
    (seatIds : List String) (p : Option Seat → Option Seat)
    (hp : ∀ s seat', p s = some seat' → P seat')
    (hst : ∀ f sid seat, lookupSeat state f sid = some seat → P seat) :
    ∀ f sid seat, lookupSeat (dispatchGrouped state seatIds p) f sid = some seat →
      P seat := by
  rw [dispatchGrouped_eq_foldDispatch]
  refine foldDispatch_P P _ ?_ _ state hst
  intro f u hu s seat' hps
  rcases List.mem_map.mp hu with ⟨s', _, rfl⟩
  exact hp s seat' hps

/-! ### C1 -/

/-- C1 (amended): after a `seat_update` event, a hold/refresh result or a
release result, every seat of the client state has `status = HOLD` iff its
`hold` field is present and non-null.  (The original claim's additional
requirement that the recorded expiry lie in the future is refuted by
`c1_status_hold_counterexample`: the client records whatever expiry the
response carries, without validating it against the clock.) -/
theorem c1_status_hold_iff_hold_present (clientId : String) (now : Int)
    (state : SeatState) (p : SeatUpdatePayload) (holdIds releaseIds : List String)
    (expireAt : Option Int) (hpre : stateHoldFlagInvariant state) :
    stateHoldFlagInvariant (applySeatUpdateEvent clientId now state p) ∧
    stateHoldFlagInvariant (applyHoldResult clientId now state holdIds expireAt) ∧
    stateHoldFlagInvariant (applyRelease now state releaseIds) := by
  refine ⟨?_, ?_, ?_⟩
  · intro f sid seat hlook
    refine seatReducer_patch_P holdFlagInvariant state (seatIdToFloor p.seat_id)
      _ hpre ?_ f sid seat hlook
    intro u hu s seat' hps
    rcases List.mem_singleton.mp hu with rfl
    exact seatUpdatePatch_holdFlag clientId now p s seat' hps
  · unfold applyHoldResult
    split
    · exact hpre
    · exact dispatchGrouped_P holdFlagInvariant state holdIds _
        (holdPatch_holdFlag clientId now _) hpre
  · unfold applyRelease
    split
    · exact hpre
    · exact dispatchGrouped_P holdFlagInvariant state releaseIds _
        (releasePatch_holdFlag now) hpre

/-- Witness for C1's amended theorem at concrete inputs. -/
theorem c1_status_hold_iff_hold_present_witness :
    stateHoldFlagInvariant (applySeatUpdateEvent "c1" 0 emptySeatState
      ⟨"1-1-A", SeatStatus.AVAILABLE, SeatStatus.HOLD, some "c2", 500⟩) ∧
    stateHoldFlagInvariant (applyHoldResult "c1" 0 emptySeatState ["1-1-A"] none) ∧
    stateHoldFlagInvariant (applyRelease 0 emptySeatState ["1-1-A"]) :=
  c1_status_hold_iff_hold_present "c1" 0 emptySeatState
    ⟨"1-1-A", SeatStatus.AVAILABLE, SeatStatus.HOLD, some "c2", 500⟩
    ["1-1-A"] ["1-1-A"] none
    (fun _ _ _ h => Option.noConfusion h)

/-- C1 as stated is false: applying a hold result whose server expiry `0`
is already past at client time `1000` leaves the seat in HOLD status with
an expiry not in the future. -/
theorem c1_status_hold_counterexample :
    lookupSeat (applyHoldResult "c1" 1000 stateA ["1-1-A"] (some 0)) 1 "1-1-A" =
      some c1HeldSeat ∧
    ¬ holdFutureInvariant 1000 c1HeldSeat := by
  constructor
  · decide
  · intro hinv
    obtain ⟨h, hh1, hh2⟩ := hinv.mp rfl
    have h2 : some h = some ({ client_id := "c1", expires_at := 0 } : SeatHoldInfo) :=
      hh1.symm.trans rfl
    injection h2 with h3
    rw [h3] at hh2
    exact absurd hh2 (by decide)

/-! ### C2 -/

/-- C2 (amended): for every hold/refresh response, every listed seat that
is present in its floor's loaded map is recorded held by this client with
the single expiry `getExpireAtOrDefault expireAt now`; when the response
carries a non-null `expire_at` that expiry is exactly the server's value,
but when `expire_at` is null the client computes the fallback
`now + HOLD_TTL_SECONDS * 1000` itself.  (The original claim — that the
client never computes an expiry, even for a null `expire_at` — is refuted
by `c2_expiry_counterexample`.) -/
theorem c2_expiry_from_response (clientId : String) (now : Int) (state : SeatState)
    (seatIds : List String) (expireAt : Option Int) (sid : String) (seat : Seat)
    (hmem : sid ∈ seatIds) (current : String → Option Seat)
    (hload : state (seatIdToFloor sid) = some current)
    (hseat : current sid = some seat) :
    lookupSeat (applyHoldResult clientId now state seatIds expireAt)
        (seatIdToFloor sid) sid =
      some { seat with
        status := SeatStatus.HOLD
        hold := some { client_id := clientId,
                       expires_at := getExpireAtOrDefault expireAt now }
        updated_at := now } ∧
    (∀ t, expireAt = some t → getExpireAtOrDefault expireAt now = t) ∧
    (expireAt = none →
      getExpireAtOrDefault expireAt now = now + HOLD_TTL_SECONDS * 1000) := by
  refine ⟨?_, ?_, ?_⟩
  · have hne : seatIds.isEmpty ≠ true := by
      cases seatIds with
      | nil => exact absurd hmem (List.not_mem_nil sid)
      | cons a l => simp [List.isEmpty]
    unfold applyHoldResult
    rw [if_neg hne]
    exact dispatchGrouped_lookup state seatIds _ sid _ hmem current hload
      (by unfold holdPatch; rw [hseat])
  · intro t ht
    rw [ht]
    rfl
  · intro ht
    rw [ht]
    rfl

/-- Witness for C2's amended theorem at concrete inputs. -/
theorem c2_expiry_from_response_witness :
    lookupSeat (applyHoldResult "c2" 50 stateA ["1-1-A"] (some 777))
        (seatIdToFloor "1-1-A") "1-1-A" =
      some { seatA with
        status := SeatStatus.HOLD
        hold := some { client_id := "c2",
                       expires_at := getExpireAtOrDefault (some 777) 50 }
        updated_at := 50 } ∧
    (∀ t, (some 777 : Option Int) = some t → getExpireAtOrDefault (some 777) 50 = t) ∧
    ((some 777 : Option Int) = none →
      getExpireAtOrDefault (some 777) 50 = 50 + HOLD_TTL_SECONDS * 1000) :=
  c2_expiry_from_response "c2" 50 stateA ["1-1-A"] (some 777) "1-1-A" seatA
    (by decide) floorMapA rfl rfl

/-- C2 as stated is false: with a null `expire_at`, the same response
processed at two different client clock instants records two different
expiries — `now + 120000` is computed by the client, not taken from the
response. -/
theorem c2_expiry_counterexample :
    lookupSeat (applyHoldResult "c1" 0 stateA ["1-1-A"] none) 1 "1-1-A" =
      some { seatA with
        status := SeatStatus.HOLD
        hold := some { client_id := "c1", expires_at := 120000 }
        updated_at := 0 } ∧
    lookupSeat (applyHoldResult "c1" 5000 stateA ["1-1-A"] none) 1 "1-1-A" =
      some { seatA with
        status := SeatStatus.HOLD
        hold := some { client_id := "c1", expires_at := 125000 }
        updated_at := 5000 } := by
  constructor
  · decide
  · decide

/-! ### C3 -/

theorem seatUpdatePatch_some (clientId : String) (now : Int) (p : SeatUpdatePayload)
    (seat : Seat) :
    ∃ seat', seatUpdatePatch clientId now p (some seat) = some seat' ∧
      seat'.status = p.to_ ∧ seat'.updated_at = p.at_ := by
  unfold seatUpdatePatch
  by_cases hS : p.to_ = SeatStatus.SOLD
  · by_cases hH : p.to_ = SeatStatus.HOLD
    · rw [hS] at hH
      exact absurd hH (by decide)
    · exact ⟨_, rfl, by simp [hS, hH], by simp [hS, hH]⟩
  · by_cases hH : p.to_ = SeatStatus.HOLD
    · exact ⟨_, rfl, by simp [hS, hH], by simp [hS, hH]⟩
    · exact ⟨_, rfl, by simp [hS, hH], by simp [hS, hH]⟩

/-- C3 (amended): once the floor's seat map is loaded and contains the
seat, every `seat_update` delivered on the live stream is reflected in
the client state — the seat's status becomes the event's `to` and its
`updated_at` the event's `at`.  (The claim's guarantee for *every*
interleaving is refuted by `c3_lost_transition_counterexample`: the
subscription starts delivering before the snapshot is installed, and a
`PATCH_SEATS` for a floor with no loaded map is a no-op, so a transition
delivered early is reflected neither by the handler nor by a snapshot
taken before it.) -/
theorem c3_update_reflected_after_load (clientId : String) (now : Int)
    (state : SeatState) (p : SeatUpdatePayload) (current : String → Option Seat)
    (seat : Seat) (hload : state (seatIdToFloor p.seat_id) = some current)
    (hseat : current p.seat_id = some seat) :
    ((lookupSeat (applySeatUpdateEvent clientId now state p)
        (seatIdToFloor p.seat_id) p.seat_id).map Seat.status = some p.to_) ∧
    ((lookupSeat (applySeatUpdateEvent clientId now state p)
        (seatIdToFloor p.seat_id) p.seat_id).map Seat.updated_at = some p.at_) := by
  obtain ⟨nxt, hpatch, hst, hup⟩ := seatUpdatePatch_some clientId now p seat
  have hlook : lookupSeat (applySeatUpdateEvent clientId now state p)
      (seatIdToFloor p.seat_id) p.seat_id = some nxt := by
    unfold applySeatUpdateEvent
    refine seatReducer_patch_lookup state _ current hload _ p.seat_id nxt
      (fun u hu _ => ?_) ⟨_, List.mem_singleton_self _, rfl⟩
    rcases List.mem_singleton.mp hu with rfl
    show seatUpdatePatch clientId now p (current p.seat_id) = some nxt
    rw [hseat]
    exact hpatch
  rw [hlook]
  simp [hst, hup]

/-- Witness for C3's amended theorem at concrete inputs. -/
theorem c3_update_reflected_after_load_witness :
    ((lookupSeat (applySeatUpdateEvent "c1" 600 stateA evPayloadHold)
        (seatIdToFloor evPayloadHold.seat_id) evPayloadHold.seat_id).map Seat.status =
      some evPayloadHold.to_) ∧
    ((lookupSeat (applySeatUpdateEvent "c1" 600 stateA evPayloadHold)
        (seatIdToFloor evPayloadHold.seat_id) evPayloadHold.seat_id).map Seat.updated_at =
      some evPayloadHold.at_) :=
  c3_update_reflected_after_load "c1" 600 stateA evPayloadHold floorMapA seatA rfl rfl

/-- C3 as stated is false: a HOLD transition delivered before the floor's
snapshot is installed leaves the state untouched (the patch of an
unloaded floor is a no-op), and a snapshot taken before the transition
then installs the seat as AVAILABLE — the transition is both missed by
the handler and absent from the snapshot. -/
theorem c3_lost_transition_counterexample :
    applySeatUpdateEvent "c1" 600 emptySeatState evPayloadHold = emptySeatState ∧
    lookupSeat (seatReducer (applySeatUpdateEvent "c1" 600 emptySeatState evPayloadHold)
        (.SET_SEATS 1 [seatA])) 1 "1-1-A" = some seatA ∧
    seatA.status = SeatStatus.AVAILABLE ∧ evPayloadHold.to_ = SeatStatus.HOLD := by
  refine ⟨rfl, by decide, rfl, rfl⟩

/-! ### C4 -/

/-- C4: `handleReleaseAll` issues a release request whose body contains
only `client_id` (`seat_ids` is `undefined`, which `JSON.stringify`
drops), and `applyRelease` of the response's `released` list sets exactly
the listed seats (those present at their parsed floor) to AVAILABLE with
the hold cleared, leaving every other seat id untouched on every floor. -/
theorem c4_release_all_exact (clientId : String) (now : Int) (state : SeatState)
    (heldBySelf : List Seat) (released : List String)
    (hheld : heldBySelf ≠ []) :
    handleReleaseAllRequest heldBySelf clientId = some (releaseRequest none clientId) ∧
    (releaseRequest none clientId).body = [("client_id", JsonValue.str clientId)] ∧
    (∀ sid current seat, sid ∈ released →
      state (seatIdToFloor sid) = some current → current sid = some seat →
      lookupSeat (applyRelease now state released) (seatIdToFloor sid) sid =
        some { seat with
          status := SeatStatus.AVAILABLE
          hold := none
          updated_at := now }) ∧
    (∀ sid, sid ∉ released → ∀ f,
      lookupSeat (applyRelease now state released) f sid = lookupSeat state f sid) := by
  refine ⟨?_, rfl, ?_, ?_⟩
  · cases heldBySelf with
    | nil => exact absurd rfl hheld
    | cons a l => rfl
  · intro sid current seat hmem hload hseat
    have hne : released.isEmpty ≠ true := by
      cases released with
      | nil => exact absurd hmem (List.not_mem_nil sid)
      | cons a l => simp [List.isEmpty]
    unfold applyRelease
    rw [if_neg hne]
    exact dispatchGrouped_lookup state released _ sid _ hmem current hload
      (by unfold releasePatch; rw [hseat])
  · intro sid hn f
    unfold applyRelease
    split
    · rfl
    · exact dispatchGrouped_key_frame state released _ sid hn f

/-- Witness for C4 at concrete inputs. -/
theorem c4_release_all_exact_witness :
    handleReleaseAllRequest [seatA] "c4" = some (releaseRequest none "c4") ∧
    lookupSeat (applyRelease 9 stateA ["1-1-A"]) (seatIdToFloor "1-1-A") "1-1-A" =
      some { seatA with
        status := SeatStatus.AVAILABLE
        hold := none
        updated_at := 9 } :=
  ⟨(c4_release_all_exact "c4" 9 stateA [seatA] ["1-1-A"] (by simp)).1,
   (c4_release_all_exact "c4" 9 stateA [seatA] ["1-1-A"] (by simp)).2.2.1
     "1-1-A" floorMapA seatA (by decide) rfl rfl⟩

/-! ### C5 -/

theorem payloadFields_keys (p : AdminSeatUpdatePayload) :
    ∀ kv ∈ payloadFields p, kv.1 = "status" ∨ kv.1 = "tier" ∨ kv.1 = "price" := by
  obtain ⟨st, ti, pr⟩ := p
  intro kv hkv
  unfold payloadFields at hkv
  simp only [List.mem_append] at hkv
  rcases hkv with (h | h) | h
  · cases st with
    | none => simp at h
    | some s =>
      rcases List.mem_singleton.mp h with rfl
      exact Or.inl rfl
  · cases ti with
    | none => simp at h
    | some t =>
      cases t with
      | none =>
        rcases List.mem_singleton.mp h with rfl
        exact Or.inr (Or.inl rfl)
      | some t' =>
        rcases List.mem_singleton.mp h with rfl
        exact Or.inr (Or.inl rfl)
  · cases pr with
    | none => simp at h
    | some n =>
      cases n with
      | none =>
        rcases List.mem_singleton.mp h with rfl
        exact Or.inr (Or.inr rfl)
      | some n' =>
        rcases List.mem_singleton.mp h with rfl
        exact Or.inr (Or.inr rfl)

/-- C5: admin single and bulk updates carry the admin token in the
`X-Admin-Token` header; the JSON body holds only the payload fields (and
`seat_ids` for bulk), never the token; with no token set both handlers
throw the missing-token error before issuing any request, an outcome
distinct by construction from the normal response shape. -/
theorem c5_admin_token_header (adminToken seatId : String) (seatIds : List String)
    (payload : AdminSeatUpdatePayload) :
    (adminToken = "" →
      handleAdminUpdateCall adminToken seatId payload =
        AdminCall.authError "管理员令牌缺失" ∧
      handleAdminBulkUpdateCall adminToken seatIds payload =
        AdminCall.authError "管理员令牌缺失") ∧
    (adminToken ≠ "" →
      handleAdminUpdateCall adminToken seatId payload =
        AdminCall.issued (adminUpdateSeatRequest seatId payload adminToken) ∧
      handleAdminBulkUpdateCall adminToken seatIds payload =
        AdminCall.issued (adminBulkUpdateRequest seatIds payload adminToken)) ∧
    ("X-Admin-Token", adminToken) ∈ (adminUpdateSeatRequest seatId payload adminToken).headers ∧
    ("X-Admin-Token", adminToken) ∈ (adminBulkUpdateRequest seatIds payload adminToken).headers ∧
    (∀ kv ∈ (adminUpdateSeatRequest seatId payload adminToken).body,
      kv.1 = "status" ∨ kv.1 = "tier" ∨ kv.1 = "price") ∧
    (∀ kv ∈ (adminBulkUpdateRequest seatIds payload adminToken).body,
      kv.1 = "seat_ids" ∨ kv.1 = "status" ∨ kv.1 = "tier" ∨ kv.1 = "price") := by
  refine ⟨?_, ?_, ?_, ?_, ?_, ?_⟩
  · intro h
    unfold handleAdminUpdateCall handleAdminBulkUpdateCall
    rw [if_pos h, if_pos h]
    exact ⟨rfl, rfl⟩
  · intro h
    unfold handleAdminUpdateCall handleAdminBulkUpdateCall
    rw [if_neg h, if_neg h]
    exact ⟨rfl, rfl⟩
  · exact List.mem_cons_of_mem _ (List.mem_singleton_self _)
  · exact List.mem_cons_of_mem _ (List.mem_singleton_self _)
  · exact payloadFields_keys payload
  · intro kv hkv
    rcases List.mem_cons.mp hkv with rfl | h
    · exact Or.inl rfl
    · exact Or.inr (payloadFields_keys payload kv h)

/-- Witness for C5 at concrete inputs: the empty and a non-empty token. -/
theorem c5_admin_token_header_witness :
    (handleAdminUpdateCall "" "1-1-A" payloadX =
      AdminCall.authError "管理员令牌缺失") ∧
    (handleAdminUpdateCall "secret" "1-1-A" payloadX =
      AdminCall.issued (adminUpdateSeatRequest "1-1-A" payloadX "secret")) ∧
    ("X-Admin-Token", "secret") ∈
      (adminUpdateSeatRequest "1-1-A" payloadX "secret").headers :=
  ⟨((c5_admin_token_header "" "1-1-A" ["1-1-A"] payloadX).1 rfl).1,
   ((c5_admin_token_header "secret" "1-1-A" ["1-1-A"] payloadX).2.1 (by decide)).1,
   (c5_admin_token_header "secret" "1-1-A" ["1-1-A"] payloadX).2.2.1⟩

/-! ### C6 -/

theorem bulkApplyUpdated_eq_foldDispatch (state : SeatState)
    (resp : AdminSeatBulkResponse) (h : resp.updated.isEmpty ≠ true) :
    bulkApplyUpdated state resp =
      foldDispatch
        (fun f => (resp.updated.filter (fun s => s.floor = f)).map
          (fun s => ⟨s.seat_id, constPatch s⟩))
        ((dedupFirst (resp.updated.map Seat.floor)).filter
          (fun f => (state f).isSome))
        state := by
  unfold bulkApplyUpdated
  rw [if_neg h]
  rfl

/-- C6: for every bulk-update response (with pairwise distinct returned
seat ids), each returned seat whose floor map is loaded is installed
verbatim in the client state; every seat id outside the `updated` list
keeps its previous state on every floor; floors with no loaded map are
left untouched by the patch step and are exactly the floors scheduled
for a wholesale refetch; and the `missing` list has no influence on the
resulting seat state. -/
theorem c6_bulk_update_exact (state : SeatState) (resp : AdminSeatBulkResponse)
    (hnodup : (resp.updated.map Seat.seat_id).Nodup) :
    (∀ s ∈ resp.updated, ∀ current, state s.floor = some current →
      lookupSeat (bulkApplyUpdated state resp) s.floor s.seat_id = some s) ∧
    (∀ sid, sid ∉ resp.updated.map Seat.seat_id → ∀ f,
      lookupSeat (bulkApplyUpdated state resp) f sid = lookupSeat state f sid) ∧
    (∀ f, state f = none → (bulkApplyUpdated state resp) f = state f) ∧
    (∀ f, f ∈ bulkFloorsToRefresh state resp ↔
      ((state f).isNone = true ∧ f ∈ resp.updated.map Seat.floor)) ∧
    (∀ m, bulkApplyUpdated state { updated := resp.updated, missing := m } =
      bulkApplyUpdated state resp) := by
  obtain ⟨u, miss⟩ := resp
  simp only at hnodup ⊢
  refine ⟨?_, ?_, ?_, ?_, fun m => rfl⟩
  · intro s hs current hcur
    have hne : u.isEmpty ≠ true := by
      cases u with
      | nil => exact absurd hs (List.not_mem_nil s)
      | cons a l => simp [List.isEmpty]
    rw [bulkApplyUpdated_eq_foldDispatch state ⟨u, miss⟩ hne]
    have hfmem : s.floor ∈ (dedupFirst (u.map Seat.floor)).filter
        (fun f => (state f).isSome) := by
      rw [List.mem_filter]
      refine ⟨(dedupFirst_mem _ _).mpr (List.mem_map_of_mem Seat.floor hs), ?_⟩
      rw [hcur]
      rfl
    have hfold := foldDispatch_mem
      (fun f => (u.filter (fun s => s.floor = f)).map
        (fun s => ⟨s.seat_id, constPatch s⟩))
      ((dedupFirst (u.map Seat.floor)).filter (fun f => (state f).isSome))
      state s.floor ((dedupFirst_nodup _).filter _) hfmem
    unfold lookupSeat
    rw [hfold]
    have := seatReducer_patch_lookup state s.floor current hcur
      ((u.filter (fun s' => s'.floor = s.floor)).map
        (fun s' => ⟨s'.seat_id, constPatch s'⟩)) s.seat_id s
      (fun v hv hid => by
        rcases List.mem_map.mp hv with ⟨s', hs', rfl⟩
        have hs'mem : s' ∈ u := (List.mem_filter.mp hs').1
        have hss : s' = s :=
          List.inj_on_of_nodup_map hnodup hs'mem hs hid
        rw [hss]
        rfl)
      ⟨⟨s.seat_id, constPatch s⟩,
        List.mem_map_of_mem _ (List.mem_filter.mpr ⟨hs, by simp⟩), rfl⟩
    unfold lookupSeat at this
    exact this
  · intro sid hn f
    cases u with
    | nil => rfl
    | cons a l =>
      rw [bulkApplyUpdated_eq_foldDispatch state ⟨a :: l, miss⟩
        (by simp [List.isEmpty])]
      refine foldDispatch_key_frame _ sid ?_ _ state f
      intro f' v hv
      rcases List.mem_map.mp hv with ⟨s', hs', rfl⟩
      intro he
      exact hn (he ▸ List.mem_map_of_mem Seat.seat_id (List.mem_filter.mp hs').1)
  · intro f hf
    cases u with
    | nil => rfl
    | cons a l =>
      rw [bulkApplyUpdated_eq_foldDispatch state ⟨a :: l, miss⟩
        (by simp [List.isEmpty])]
      refine foldDispatch_frame _ _ state f ?_
      rw [List.mem_filter]
      rintro ⟨-, habs⟩
      rw [hf] at habs
      exact Bool.noConfusion habs
  · intro f
    unfold bulkFloorsToRefresh
    cases u with
    | nil => simp
    | cons a l =>
      rw [if_neg (by simp [List.isEmpty])]
      rw [dedupFirst_mem, List.mem_filter]
      constructor
      · rintro ⟨h1, h2⟩
        exact ⟨h2, h1⟩
      · rintro ⟨h1, h2⟩
        exact ⟨h2, h1⟩

/-- Witness for C6 at concrete inputs. -/
theorem c6_bulk_update_exact_witness :
    lookupSeat (bulkApplyUpdated stateA ⟨[seatASold], ["9-9-Z"]⟩)
        seatASold.floor seatASold.seat_id = some seatASold ∧
    lookupSeat (bulkApplyUpdated stateA ⟨[seatASold], ["9-9-Z"]⟩) 1 "1-1-B" =
      lookupSeat stateA 1 "1-1-B" ∧
    (2 ∈ bulkFloorsToRefresh stateA ⟨[seatASold], ["9-9-Z"]⟩ ↔
      ((stateA 2).isNone = true ∧ 2 ∈ [seatASold].map Seat.floor)) :=
  ⟨(c6_bulk_update_exact stateA ⟨[seatASold], ["9-9-Z"]⟩ (by simp)).1 seatASold
      (List.mem_singleton_self _) floorMapA rfl,
   (c6_bulk_update_exact stateA ⟨[seatASold], ["9-9-Z"]⟩ (by simp)).2.1 "1-1-B"
      (by decide) 1,
   (c6_bulk_update_exact stateA ⟨[seatASold], ["9-9-Z"]⟩ (by simp)).2.2.2.1 2⟩

/-! ### C7 -/

/-- C7 (amended): the hold request body holds exactly the keys `seat_ids`
and `client_id` with the given values, and the client applies one uniform
expiry — `getExpireAtOrDefault expire_at now` — to every seat of
`held ++ refreshed` present in its floor's loaded map; that uniform value
equals the response's `expire_at` whenever it is non-null.  (That the
applied expiry equals `expire_at` even when null is refuted by
`c7_expire_at_counterexample`: for a null `expire_at` the applied value
is the client-computed fallback.) -/
theorem c7_hold_shape_and_uniform_expiry (clientId : String) (now : Int)
    (state : SeatState) (seatIds held refreshed : List String)
    (expireAt : Option Int) (sid1 sid2 : String)
    (cur1 cur2 : String → Option Seat) (s1 s2 : Seat)
    (h1 : sid1 ∈ held ++ refreshed) (h2 : sid2 ∈ held ++ refreshed)
    (hl1 : state (seatIdToFloor sid1) = some cur1) (hs1 : cur1 sid1 = some s1)
    (hl2 : state (seatIdToFloor sid2) = some cur2) (hs2 : cur2 sid2 = some s2) :
    (holdRequest seatIds clientId).body =
      [("seat_ids", JsonValue.arr (seatIds.map JsonValue.str)),
       ("client_id", JsonValue.str clientId)] ∧
    (lookupSeat (applyHoldResult clientId now state (held ++ refreshed) expireAt)
        (seatIdToFloor sid1) sid1).map Seat.hold =
      some (some { client_id := clientId,
                   expires_at := getExpireAtOrDefault expireAt now }) ∧
    (lookupSeat (applyHoldResult clientId now state (held ++ refreshed) expireAt)
        (seatIdToFloor sid2) sid2).map Seat.hold =
      some (some { client_id := clientId,
                   expires_at := getExpireAtOrDefault expireAt now }) ∧
    (∀ t, expireAt = some t → getExpireAtOrDefault expireAt now = t) := by
  have hne : (held ++ refreshed).isEmpty ≠ true := by
    cases hl : held ++ refreshed with
    | nil => rw [hl] at h1; exact absurd h1 (List.not_mem_nil sid1)
    | cons a l => simp [List.isEmpty]
  refine ⟨rfl, ?_, ?_, ?_⟩
  · have := dispatchGrouped_lookup state (held ++ refreshed)
      (holdPatch clientId now (getExpireAtOrDefault expireAt now)) sid1 _ h1 cur1 hl1
      (by unfold holdPatch; rw [hs1])
    unfold applyHoldResult
    rw [if_neg hne, this]
    rfl
  · have := dispatchGrouped_lookup state (held ++ refreshed)
      (holdPatch clientId now (getExpireAtOrDefault expireAt now)) sid2 _ h2 cur2 hl2
      (by unfold holdPatch; rw [hs2])
    unfold applyHoldResult
    rw [if_neg hne, this]
    rfl
  · intro t ht
    rw [ht]
    rfl

/-- Witness for C7's amended theorem at concrete inputs: two seats on
different floors, held in one call, share the server expiry 999. -/
theorem c7_hold_shape_and_uniform_expiry_witness :
    (holdRequest ["1-1-A", "2-1-B"] "c7").body =
      [("seat_ids", JsonValue.arr [JsonValue.str "1-1-A", JsonValue.str "2-1-B"]),
       ("client_id", JsonValue.str "c7")] ∧
    (lookupSeat (applyHoldResult "c7" 10 stateAB (["1-1-A"] ++ ["2-1-B"]) (some 999))
        (seatIdToFloor "1-1-A") "1-1-A").map Seat.hold =
      some (some { client_id := "c7",
                   expires_at := getExpireAtOrDefault (some 999) 10 }) ∧
    (lookupSeat (applyHoldResult "c7" 10 stateAB (["1-1-A"] ++ ["2-1-B"]) (some 999))
        (seatIdToFloor "2-1-B") "2-1-B").map Seat.hold =
      some (some { client_id := "c7",
                   expires_at := getExpireAtOrDefault (some 999) 10 }) ∧
    (∀ t, (some 999 : Option Int) = some t → getExpireAtOrDefault (some 999) 10 = t) :=
  c7_hold_shape_and_uniform_expiry "c7" 10 stateAB ["1-1-A", "2-1-B"]
    ["1-1-A"] ["2-1-B"] (some 999) "1-1-A" "2-1-B" floorMapA floorMapB seatA seatB
    (by decide) (by decide) rfl rfl rfl rfl

/-- C7 as stated is false for a null `expire_at`: the expiry the client
applies is then `now + 120000`, a client-clock-derived value, not the
response's `expire_at` — the same null response applied at instants 100
and 200 records expiries 120100 and 120200. -/
theorem c7_expire_at_counterexample :
    lookupSeat (applyHoldResult "c7" 100 stateAB ["2-1-B"] none) 2 "2-1-B" =
      some { seatB with
        status := SeatStatus.HOLD
        hold := some { client_id := "c7", expires_at := 120100 }
        updated_at := 100 } ∧
    lookupSeat (applyHoldResult "c7" 200 stateAB ["2-1-B"] none) 2 "2-1-B" =
      some { seatB with
        status := SeatStatus.HOLD
        hold := some { client_id := "c7", expires_at := 120200 }
        updated_at := 200 } := by
  constructor
  · decide
  · decide

/-! ### C8 -/

theorem digitChar_inj_lt10 :
    ∀ a : Nat, a < 10 → ∀ b : Nat, b < 10 →
      Nat.digitChar a = Nat.digitChar b → a = b := by
  decide

theorem map_digitChar_inj :
    ∀ (l1 l2 : List Nat), (∀ x ∈ l1, x < 10) → (∀ x ∈ l2, x < 10) →
      l1.map Nat.digitChar = l2.map Nat.digitChar → l1 = l2 := by
  intro l1
  induction l1 with
  | nil =>
    intro l2 _ _ h
    cases l2 with
    | nil => rfl
    | cons b m => simp at h
  | cons a l ih =>
    intro l2 h1 h2 h
    cases l2 with
    | nil => simp at h
    | cons b m =>
      simp only [List.map_cons, List.cons.injEq] at h
      obtain ⟨hab, hlm⟩ := h
      have hd := digitChar_inj_lt10 a (h1 a (List.mem_cons_self a l))
        b (h2 b (List.mem_cons_self b m)) hab
      subst hd
      rw [ih m (fun x hx => h1 x (List.mem_cons_of_mem a hx))
        (fun x hx => h2 x (List.mem_cons_of_mem a hx)) hlm]

theorem digits_map_ne_singleton_zero (m : Nat) (hm : m ≠ 0)
    (h : (List.map Nat.digitChar (Nat.digits 10 m)).reverse = ['0']) : False := by
  have hmap : List.map Nat.digitChar (Nat.digits 10 m) = ['0'] := by
    have := congrArg List.reverse h
    simpa using this
  cases hdig : Nat.digits 10 m with
  | nil =>
    rw [hdig] at hmap
    simp at hmap
  | cons d rest =>
    rw [hdig] at hmap
    cases rest with
    | nil =>
      simp only [List.map_cons, List.map_nil] at hmap
      have hchar : Nat.digitChar d = '0' :=
        ((List.cons.injEq _ _ _ _).mp hmap).1
      have hdlt : d < 10 :=
        Nat.digits_lt_base (by norm_num) (hdig ▸ List.mem_cons_self d [])
      have hd0 : d = 0 := digitChar_inj_lt10 d hdlt 0 (by norm_num)
        (by rw [hchar]; rfl)
      have hm0 := congrArg (Nat.ofDigits 10) hdig
      rw [Nat.ofDigits_digits] at hm0
      rw [hd0] at hm0
      simp [Nat.ofDigits] at hm0
      exact hm hm0
    | cons d2 rest2 => simp at hmap

theorem jsNatToString_inj (n m : Nat) (h : jsNatToString n = jsNatToString m) :
    n = m := by
  unfold jsNatToString at h
  by_cases hn : n = 0 <;> by_cases hm : m = 0
  · rw [hn, hm]
  · exfalso
    rw [if_pos hn, if_neg hm] at h
    have hd : (['0'] : List Char) =
        (List.map Nat.digitChar (Nat.digits 10 m)).reverse :=
      congrArg String.data h
    exact digits_map_ne_singleton_zero m hm hd.symm
  · exfalso
    rw [if_neg hn, if_pos hm] at h
    have hd : (List.map Nat.digitChar (Nat.digits 10 n)).reverse =
        (['0'] : List Char) :=
      congrArg String.data h
    exact digits_map_ne_singleton_zero n hn hd
  · rw [if_neg hn, if_neg hm] at h
    have hd : (List.map Nat.digitChar (Nat.digits 10 n)).reverse =
        (List.map Nat.digitChar (Nat.digits 10 m)).reverse :=
      congrArg String.data h
    have hrev := List.reverse_injective hd
    have hdig := map_digitChar_inj (Nat.digits 10 n) (Nat.digits 10 m)
      (fun x hx => Nat.digits_lt_base (by norm_num) hx)
      (fun x hx => Nat.digits_lt_base (by norm_num) hx) hrev
    have := congrArg (Nat.ofDigits 10) hdig
    rwa [Nat.ofDigits_digits, Nat.ofDigits_digits] at this

theorem string_data_append (a b : String) : (a ++ b).data = a.data ++ b.data :=
  String.data_append a b

theorem mkConfirmRequestId_inj (clientId : String) (n1 n2 : Nat)
    (h : mkConfirmRequestId clientId n1 = mkConfirmRequestId clientId n2) :
    n1 = n2 := by
  unfold mkConfirmRequestId at h
  have hd := congrArg String.data h
  rw [string_data_append, string_data_append, string_data_append,
    string_data_append] at hd
  have hcancel := List.append_cancel_left hd
  exact jsNatToString_inj n1 n2 (String.ext hcancel)

/-- C8: `handleConfirm` builds the request id as the literal template
`` `${clientId}-${Date.now()}` ``; two confirm invocations at distinct
millisecond instants therefore carry different request ids, and the
confirm request bodies they send are never verbatim-identical. -/
theorem c8_confirm_request_id_fresh (clientId : String) (heldBySelf : List Seat)
    (n1 n2 : Nat) (hne : n1 ≠ n2) :
    mkConfirmRequestId clientId n1 = clientId ++ "-" ++ jsNatToString n1 ∧
    mkConfirmRequestId clientId n1 ≠ mkConfirmRequestId clientId n2 ∧
    (∀ req1 req2, handleConfirmRequest false heldBySelf clientId n1 = some req1 →
      handleConfirmRequest false heldBySelf clientId n2 = some req2 →
      req1.body ≠ req2.body) := by
  refine ⟨rfl, fun h => hne (mkConfirmRequestId_inj clientId n1 n2 h), ?_⟩
  intro req1 req2 h1 h2 heq
  unfold handleConfirmRequest at h1 h2
  split at h1
  · exact Option.noConfusion h1
  · split at h1
    · exact Option.noConfusion h1
    · rename_i hfalse hempty
      rw [if_neg hfalse, if_neg hempty] at h2
      injection h1 with h1'
      injection h2 with h2'
      rw [← h1', ← h2'] at heq
      simp [confirmRequestBody] at heq
      exact hne (mkConfirmRequestId_inj clientId n1 n2 heq)

/-- Witness for C8 at concrete inputs. -/
theorem c8_confirm_request_id_fresh_witness :
    mkConfirmRequestId "c8" 3 = "c8" ++ "-" ++ jsNatToString 3 ∧
    mkConfirmRequestId "c8" 3 ≠ mkConfirmRequestId "c8" 4 :=
  ⟨(c8_confirm_request_id_fresh "c8" [seatA] 3 4 (by decide)).1,
   (c8_confirm_request_id_fresh "c8" [seatA] 3 4 (by decide)).2.1⟩

/-! ### C9 -/

/-- C9: hold requests from the seat map target only AVAILABLE seats: a
seat click produces a hold request only for a seat whose status is
AVAILABLE (and only for that seat); BLOCKED and SOLD seats produce
nothing; a seat held by this client produces a release request instead;
and every seat id the box-selection hands to `onBoxSelect` belongs to a
visible seat whose status is AVAILABLE. -/
theorem c9_hold_only_available :
    (∀ (adminEnabled holding : Bool) (clientId : String) (seat : Seat)
       (ids : List String) (cid : String),
      handleSeatClick adminEnabled holding clientId seat =
        SeatClickEffect.holdReq ids cid →
      seat.status = SeatStatus.AVAILABLE ∧ ids = [seat.seat_id] ∧ cid = clientId) ∧
    (∀ (clientId : String) (seat : Seat),
      seat.status = SeatStatus.BLOCKED ∨ seat.status = SeatStatus.SOLD →
      handleSeatClick false false clientId seat = SeatClickEffect.nothing) ∧
    (∀ (clientId : String) (seat : Seat),
      seat.status = SeatStatus.HOLD →
      (seat.hold.map SeatHoldInfo.client_id) = some clientId →
      handleSeatClick false false clientId seat =
        SeatClickEffect.releaseReq [seat.seat_id] clientId) ∧
    (∀ (seats : List Seat) (filters : Filters) (rect : Rect) (sid : String),
      sid ∈ boxSelectedSeatIds (positionSeats seats filters) rect →
      ∃ seat, seat ∈ seats ∧ seat.seat_id = sid ∧
        seat.status = SeatStatus.AVAILABLE ∧
        seat.tier.getD "UNKNOWN" ∈ filters.tiers ∧ seat.status ∈ filters.statuses) := by
  refine ⟨?_, ?_, ?_, ?_⟩
  · intro ae hold cid0 seat ids cid h
    unfold handleSeatClick at h
    split at h
    · exact SeatClickEffect.noConfusion h
    · split at h
      · exact SeatClickEffect.noConfusion h
      · split at h
        · exact SeatClickEffect.noConfusion h
        · split at h
          · exact SeatClickEffect.noConfusion h
          · split at h
            · rename_i hav
              injection h with h1 h2
              exact ⟨hav, h1.symm, h2.symm⟩
            · exact SeatClickEffect.noConfusion h
  · intro cid0 seat hbs
    unfold handleSeatClick
    rw [if_neg (by simp), if_neg (by simp), if_pos hbs]
  · intro cid0 seat hH hown
    unfold handleSeatClick
    rw [if_neg (by simp), if_neg (by simp),
      if_neg (by rw [hH]; simp),
      if_pos ⟨hH, hown⟩]
  · intro seats filters rect sid hmem
    unfold boxSelectedSeatIds at hmem
    rcases List.mem_map.mp hmem with ⟨item, hitem, rfl⟩
    obtain ⟨hvis0, hcond⟩ := List.mem_filter.mp hitem
    obtain ⟨hpos, hvis⟩ := List.mem_filter.mp hvis0
    unfold positionSeats at hpos
    split at hpos
    · exact absurd hpos (List.not_mem_nil item)
    · rcases List.mem_map.mp hpos with ⟨seat, hseat, rfl⟩
      refine ⟨seat, hseat, rfl, ?_, ?_, ?_⟩
      · exact of_decide_eq_true ((Bool.and_eq_true _ _).mp hcond).1
      · exact of_decide_eq_true ((Bool.and_eq_true _ _).mp hvis).1
      · exact of_decide_eq_true ((Bool.and_eq_true _ _).mp hvis).2

/-- Witness for C9 at concrete inputs. -/
theorem c9_hold_only_available_witness :
    seatA.status = SeatStatus.AVAILABLE ∧ ["1-1-A"] = [seatA.seat_id] ∧
      "c9" = "c9" :=
  (c9_hold_only_available).1 false false "c9" seatA ["1-1-A"] "c9" (by decide)

/-! ### C10 -/

theorem patchStep_skip (current : String → Option Seat)
    (acc : (String → Option Seat) × Bool) (u : SeatPatch)
    (h : u.patch (current u.seatId) = none ∨
      u.patch (current u.seatId) = current u.seatId) :
    patchStep current acc u = acc := by
  unfold patchStep
  rcases h with h | h
  · rw [h]
  · cases hc : current u.seatId with
    | none =>
      rw [hc] at h
      rw [h]
    | some e =>
      rw [hc] at h
      rw [h]
      simp

theorem foldl_patchStep_skip (current : String → Option Seat) :
    ∀ (updates : List SeatPatch),
      (∀ u ∈ updates, u.patch (current u.seatId) = none ∨
        u.patch (current u.seatId) = current u.seatId) →
      ∀ acc, updates.foldl (patchStep current) acc = acc := by
  intro updates
  induction updates with
  | nil => intro _ acc; rfl
  | cons u us ih =>
    intro h acc
    simp only [List.foldl_cons]
    rw [patchStep_skip current acc u (h u (List.mem_cons_self u us))]
    exact ih (fun v hv => h v (List.mem_cons_of_mem u hv)) acc

/-- C10: the reducer returns the previous state object unchanged for a
`PATCH_SEATS` whose floor has no loaded map, and for one all of whose
patches return `undefined` or the existing seat; and both `SET_SEATS` and
`PATCH_SEATS` for a floor leave every other floor's map identical. -/
theorem c10_reducer_frame :
    (∀ (state : SeatState) (floor : Int) (updates : List SeatPatch),
      state floor = none →
      seatReducer state (.PATCH_SEATS floor updates) = state) ∧
    (∀ (state : SeatState) (floor : Int) (updates : List SeatPatch)
       (current : String → Option Seat), state floor = some current →
      (∀ u ∈ updates, u.patch (current u.seatId) = none ∨
        u.patch (current u.seatId) = current u.seatId) →
      seatReducer state (.PATCH_SEATS floor updates) = state) ∧
    (∀ (state : SeatState) (floor f' : Int) (seats : List Seat), f' ≠ floor →
      (seatReducer state (.SET_SEATS floor seats)) f' = state f') ∧
    (∀ (state : SeatState) (floor f' : Int) (updates : List SeatPatch), f' ≠ floor →
      (seatReducer state (.PATCH_SEATS floor updates)) f' = state f') := by
  refine ⟨?_, ?_, ?_, ?_⟩
  · intro state floor updates h
    exact seatReducer_patch_none state floor updates h
  · intro state floor updates current hst hskip
    have hap : applyPatches current updates = (current, false) :=
      foldl_patchStep_skip current updates hskip (current, false)
    simp only [seatReducer, hst, hap, Bool.false_eq_true, if_false]
  · intro state floor f' seats hne
    exact seatReducer_set_floor_frame state floor seats f' hne
  · intro state floor f' updates hne
    exact seatReducer_patch_floor_frame state floor updates f' hne

/-- Witness for C10 at concrete inputs. -/
theorem c10_reducer_frame_witness :
    seatReducer stateA (.PATCH_SEATS 2 [⟨"2-1-B", releasePatch 0⟩]) = stateA ∧
    seatReducer stateA (.PATCH_SEATS 1 [⟨"1-1-A", fun s => s⟩]) = stateA ∧
    (seatReducer stateA (.SET_SEATS 1 [seatASold])) 2 = stateA 2 ∧
    (seatReducer stateA (.PATCH_SEATS 1 [⟨"1-1-A", releasePatch 5⟩])) 2 = stateA 2 :=
  ⟨c10_reducer_frame.1 stateA 2 [⟨"2-1-B", releasePatch 0⟩] rfl,
   c10_reducer_frame.2.1 stateA 1 [⟨"1-1-A", fun s => s⟩] floorMapA rfl
     (by
       intro u hu
       rcases List.mem_singleton.mp hu with rfl
       exact Or.inr rfl),
   c10_reducer_frame.2.2.1 stateA 1 2 [seatASold] (by decide),
   c10_reducer_frame.2.2.2 stateA 1 2 [⟨"1-1-A", releasePatch 5⟩] (by decide)⟩

end Seats
